import Mathlib

/-!
Shallow embedding of `.github/scripts/daily_ops.py`: a scheduled automation
script that fabricates GitHub issues and pull requests, pairs them via the
labels `has-pr` / `has-issue`, and advances linked PRs through approval and
merge.  External `gh` calls are modelled by passing each call's observed
result (query lists, command outcomes) as an explicit argument; randomness
(`random.randint`) is modelled by passing each draw as an explicit argument.
-/

namespace DailyOps

/-- An issue as returned by `gh issue list --json number,labels,title`:
label objects are abstracted to their `name` strings. -/
structure Issue where
  number : Nat
  labels : List String
  title : String
deriving DecidableEq, Repr

/-- A pull request as returned by the `gh pr list` queries; `reviewDecision`
is the value later fetched by `gh pr view --json reviewDecision` (absent
decision = `none`), and `body` the value fetched by `gh pr view --json body`. -/
structure PR where
  number : Nat
  labels : List String
  headRefName : String
  reviewDecision : Option String
  body : String
deriving DecidableEq, Repr

/-! ### Python string helpers -/

/-- The whitespace characters removed by Python's `str.strip()`: exactly the
code points for which `str.isspace()` holds — `0x09`–`0x0D` (tab, newline,
vertical tab, form feed, carriage return), `0x1C`–`0x1F` (the file/group/
record/unit separators), space, `0x85` (next line), `0xA0` (no-break
space), `0x1680` (Ogham space mark), `0x2000`–`0x200A` (typographic
spaces), `0x2028`/`0x2029` (line/paragraph separators), `0x202F`,
`0x205F`, and `0x3000` (ideographic space). -/
def pythonWhitespace (c : Char) : Bool :=
  (9 ≤ c.toNat && c.toNat ≤ 13) || (28 ≤ c.toNat && c.toNat ≤ 31) ||
  c.toNat = 32 || c.toNat = 0x85 || c.toNat = 0xA0 || c.toNat = 0x1680 ||
  (0x2000 ≤ c.toNat && c.toNat ≤ 0x200A) || c.toNat = 0x2028 || c.toNat = 0x2029 ||
  c.toNat = 0x202F || c.toNat = 0x205F || c.toNat = 0x3000

/-- Python `str.strip()` on a character list: drop whitespace from both ends. -/
def pyStripList (l : List Char) : List Char :=
  ((l.dropWhile pythonWhitespace).reverse.dropWhile pythonWhitespace).reverse

/-- Python `str.strip()`. -/
def pyStrip (s : String) : String :=
  String.mk (pyStripList s.toList)

/-- The decimal digit character for `n < 10`. -/
def digitChar (n : Nat) : Char :=
  Char.ofNat (48 + n)

/-- Decimal digits of `n` (fuelled; `fuel = n + 1` always suffices). -/
def decDigits : Nat → Nat → List Char → List Char
  | 0, _, acc => acc
  | fuel + 1, n, acc =>
    if n < 10 then digitChar n :: acc
    else decDigits fuel (n / 10) (digitChar (n % 10) :: acc)

/-- Python `str(n)` for a nonnegative integer: decimal rendering. -/
def natToDecimal (n : Nat) : String :=
  String.mk (decDigits (n + 1) n [])

/-- Does `needle` start `hay`? -/
def listStarts : List Char → List Char → Bool
  | [], _ => true
  | _ :: _, [] => false
  | a :: as, b :: bs => a = b && listStarts as bs

/-- Python's `needle in hay` substring test. -/
def strContains (hay needle : String) : Bool :=
  (List.range (hay.toList.length + 1)).any fun i =>
    listStarts needle.toList (hay.toList.drop i)

/-! ### `run_command` and `ensure_label_exists` -/

/-- The observed outcome of one external command invocation. -/
structure CmdOutcome where
  exitCode : Nat
  stdout : String
  stderr : String
deriving DecidableEq, Repr

/-- The data carried by the exception `run_command` re-raises on a non-zero
exit: the failing command and its captured output streams, which it prints
before raising. -/
structure CmdFailure where
  command : List String
  stdout : String
  stderr : String
deriving DecidableEq, Repr

/-- `run_command`: on exit code 0 return `result.stdout.strip()`; otherwise
print the failing command, its stdout and stderr, and re-raise. -/
def run_command (command : List String) (outcome : CmdOutcome) :
    Except CmdFailure String :=
  if outcome.exitCode = 0 then .ok (pyStrip outcome.stdout)
  else .error ⟨command, outcome.stdout, outcome.stderr⟩

/-- Observable effects of a run (issue/PR creation, label creation, linking,
approval, merge, and the warning printed when `ensure_label_exists` catches
a failure). -/
inductive Effect where
  | labelCreated (name : String)
  | warned
  | issueCreated (asUser : Bool) (idx : Nat)
  | prCreated (asUser : Bool) (idx : Nat)
  | linked (prNumber issueNumber : Nat)
  | merged (prNumber : Nat)
  | approved (prNumber : Nat)
deriving DecidableEq, Repr

/-- `ensure_label_exists`: list existing labels; if `name` is present do
nothing, otherwise create it.  The whole body sits in a `try` block whose
`except Exception` handler prints a warning and returns normally, so a
failure of either external call (`listRes` / `createRes`) is caught and
never propagated. -/
def ensure_label_exists (name : String)
    (listRes : Except CmdFailure (List String))
    (createRes : Except CmdFailure Unit) :
    Except CmdFailure (List Effect) :=
  match listRes with
  | .error _ => .ok [.warned]
  | .ok existing =>
    if name ∈ existing then .ok []
    else
      match createRes with
      | .error _ => .ok [.warned]
      | .ok _ => .ok [.labelCreated name]

/-- The effects of `ensure_label_exists` when its external calls succeed,
given the set of label names existing in the repository. -/
def ensure_label_effects (name : String) (existing : List String) : List Effect :=
  match ensure_label_exists name (.ok existing) (.ok ()) with
  | .ok effs => effs
  | .error _ => []

/-- The label registry after a successful `ensure_label_exists` call. -/
def registryAfterEnsure (existing : List String) (name : String) : List String :=
  if name ∈ existing then existing else existing ++ [name]

/-! ### List queries and pairing -/

/-- The `gh issue list` command built by `get_open_issues_without_pr`. -/
def issue_list_cmd (repo : String) : List String :=
  ["gh", "issue", "list", "--repo", repo, "--state", "open",
   "--json", "number,labels,title", "--limit", "100"]

/-- The `gh pr list` command built by `get_open_prs_without_issue`. -/
def pr_list_cmd (repo : String) : List String :=
  ["gh", "pr", "list", "--repo", repo, "--state", "open",
   "--json", "number,labels,title", "--limit", "100"]

/-- The `gh pr list` command built by `action_merge_prs`. -/
def merge_pr_list_cmd (repo : String) : List String :=
  ["gh", "pr", "list", "--repo", repo, "--state", "open",
   "--json", "number,headRefName,labels,reviews", "--limit", "100"]

/-- The `gh pr list` command built by `action_approve_bot_prs`. -/
def approve_pr_list_cmd (repo : String) : List String :=
  ["gh", "pr", "list", "--repo", repo, "--state", "open",
   "--json", "number,headRefName,labels", "--limit", "100"]

/-- Ordering used by `sorted(..., key=lambda x: x['number'])` on issues. -/
def issueLE (a b : Issue) : Prop := a.number ≤ b.number

instance : DecidableRel issueLE := fun a b => Nat.decLe a.number b.number

/-- Ordering used by `sorted(..., key=lambda x: x['number'])` on PRs. -/
def prLE (a b : PR) : Prop := a.number ≤ b.number

instance : DecidableRel prLE := fun a b => Nat.decLe a.number b.number

/-- `get_open_issues_without_pr`, applied to the list the query returned:
keep issues with no `has-pr` label, sorted ascending by number. -/
def get_open_issues_without_pr (issues : List Issue) : List Issue :=
  List.insertionSort issueLE (issues.filter fun i => !(i.labels.contains "has-pr"))

/-- `get_open_prs_without_issue`, applied to the list the query returned:
keep PRs with no `has-issue` label, sorted ascending by number. -/
def get_open_prs_without_issue (prs : List PR) : List PR :=
  List.insertionSort prLE (prs.filter fun p => !(p.labels.contains "has-issue"))

/-- The `while unlinked_issues and unlinked_prs and processed < count` loop of
`action_link_prs_issues`: pop the head of each list, link them (the call is
`link_pr_to_issue(pr['number'], issue['number'])`), and count the pair. -/
def linkLoop : List Issue → List PR → Nat → List (Nat × Nat)
  | i :: is, p :: ps, c + 1 => (p.number, i.number) :: linkLoop is ps c
  | _, _, _ => []

/-- `action_link_prs_issues(count=100)`: pair the queried unlinked issues
with the queried unlinked PRs, head-first, up to `count` pairs.  Returns the
`(pr_number, issue_number)` pairs linked. -/
def action_link_prs_issues (issues : List Issue) (prs : List PR)
    (count : Nat := 100) : List (Nat × Nat) :=
  linkLoop (get_open_issues_without_pr issues) (get_open_prs_without_issue prs) count

/-- The new PR body computed by `link_pr_to_issue`:
`f"{current_body}\n\nFixes #{issue_number}".strip()`, where a `None` body is
first replaced by `""`. -/
def link_new_body (current_body : Option String) (issue_number : Nat) : String :=
  pyStrip (String.mk ((current_body.getD "").toList ++
    ("\n\nFixes #".toList ++ (natToDecimal issue_number).toList)))

/-! ### Repository state and the state-level effect of linking -/

/-- The repository state relevant to pairing: its open issues and open PRs. -/
structure RepoState where
  issues : List Issue
  prs : List PR
deriving DecidableEq, Repr

/-- `gh ... edit --add-label`: add a label name if it is not already present. -/
def addLabel (labels : List String) (lab : String) : List String :=
  if lab ∈ labels then labels else labels ++ [lab]

/-- Apply `--add-label lab` to the issue numbered `n`. -/
def labelIssue (issues : List Issue) (n : Nat) (lab : String) : List Issue :=
  issues.map fun i =>
    if i.number = n then { i with labels := addLabel i.labels lab } else i

/-- Apply `--add-label lab` to the PR numbered `n`. -/
def labelPR (prs : List PR) (n : Nat) (lab : String) : List PR :=
  prs.map fun p =>
    if p.number = n then { p with labels := addLabel p.labels lab } else p

/-- Apply the `gh pr edit --body` step of `link_pr_to_issue` to the PR
numbered `n`: its body becomes `link_new_body` of its current body. -/
def setPRBody (prs : List PR) (n : Nat) (issue_number : Nat) : List PR :=
  prs.map fun p =>
    if p.number = n then { p with body := link_new_body (some p.body) issue_number }
    else p

/-- State transition of `link_pr_to_issue(pr_number, issue_number)`: label
the issue `has-pr`, label the PR `has-issue`, and append the closing
reference to the PR body.  (The two cross-reference comments it also posts
are not part of the queried state.) -/
def link_pr_to_issue (s : RepoState) (pr_number issue_number : Nat) : RepoState :=
  { issues := labelIssue s.issues issue_number "has-pr"
    prs := setPRBody (labelPR s.prs pr_number "has-issue") pr_number issue_number }

/-- State-level `action_link_prs_issues`: query both unlinked lists from the
state, run the pairing loop, and apply `link_pr_to_issue` for each pair.
Returns the new state and the number of pairs processed. -/
def action_link_state (s : RepoState) (count : Nat := 100) : RepoState × Nat :=
  let pairs := linkLoop (get_open_issues_without_pr s.issues)
    (get_open_prs_without_issue s.prs) count
  (pairs.foldl (fun st q => link_pr_to_issue st q.1 q.2) s, pairs.length)

/-! ### Merging and approving -/

/-- `search_str = 'user-pr' if as_user_prs else 'bot-pr'`. -/
def search_str (as_user_prs : Bool) : String :=
  if as_user_prs then "user-pr" else "bot-pr"

/-- The merge gate of `action_merge_prs`: user PRs pass unconditionally; a
bot PR passes exactly when its queried review decision is `APPROVED`
(`if decision != 'APPROVED': continue`). -/
def mergeGate (as_user_prs : Bool) (p : PR) : Bool :=
  if as_user_prs then true else p.reviewDecision == some "APPROVED"

/-- Does `action_merge_prs` select this PR at all: branch name contains the
class tag and the PR carries the `has-issue` label. -/
def mergeSelect (as_user_prs : Bool) (p : PR) : Bool :=
  strContains p.headRefName (search_str as_user_prs) && p.labels.contains "has-issue"

/-- The `for pr in prs` loop of `action_merge_prs`, with its `processed`
counter and `break` once `processed >= count`; skipped bot PRs do not
increment the counter.  Returns the numbers of the PRs merged, in order. -/
def mergeLoop (as_user_prs : Bool) (count : Nat) :
    List PR → Nat → List Nat
  | [], _ => []
  | p :: ps, processed =>
    if count ≤ processed then []
    else if mergeSelect as_user_prs p then
      if mergeGate as_user_prs p then
        p.number :: mergeLoop as_user_prs count ps (processed + 1)
      else mergeLoop as_user_prs count ps processed
    else mergeLoop as_user_prs count ps processed

/-- `action_merge_prs(as_user_prs, count=100)`, applied to the PR list the
query returned: numbers of the PRs merged. -/
def action_merge_prs (as_user_prs : Bool) (prs : List PR)
    (count : Nat := 100) : List Nat :=
  mergeLoop as_user_prs count prs 0

/-- The `bot_prs_linked` filter of `action_approve_bot_prs`: open PRs whose
branch name contains `bot-pr` and which carry the `has-issue` label, in the
platform's listing order. -/
def bot_prs_linked (prs : List PR) : List PR :=
  prs.filter fun p =>
    strContains p.headRefName "bot-pr" && p.labels.contains "has-issue"

/-- `action_approve_bot_prs(count)`, applied to the PR list the query
returned: the first `min(len(bot_prs_linked), count)` linked bot PRs are
approved; returns their numbers. -/
def action_approve_bot_prs (count : Nat) (prs : List PR) : List Nat :=
  ((bot_prs_linked prs).take (min (bot_prs_linked prs).length count)).map PR.number

/-! ### The daily recipe -/

/-- The `random.randint` draws consumed by one invocation of the script:
`skipDraw = randint(1, 7)`, `issueCount = randint(1, 4)` (even days),
`botPrCount = randint(1, 4)` (even days), `userPrCount = randint(1, 2)`
(odd days), `approveCount = randint(1, 2)` (odd days). -/
structure Randomness where
  skipDraw : Nat
  issueCount : Nat
  botPrCount : Nat
  userPrCount : Nat
  approveCount : Nat
deriving DecidableEq, Repr

/-- Effects of `action_create_issues(count, as_user)`: one issue created per
loop iteration. -/
def action_create_issues_effects (count : Nat) (as_user : Bool) : List Effect :=
  (List.range count).map fun i => .issueCreated as_user i

/-- Effects of `action_create_prs(count, as_user)`: one branch-plus-PR
created per loop iteration. -/
def action_create_prs_effects (count : Nat) (as_user : Bool) : List Effect :=
  (List.range count).map fun i => .prCreated as_user i

/-- Effects of `action_link_prs_issues`: one link per processed pair. -/
def action_link_effects (issues : List Issue) (prs : List PR)
    (count : Nat := 100) : List Effect :=
  (action_link_prs_issues issues prs count).map fun q => .linked q.1 q.2

/-- Effects of `action_merge_prs`: one merge per merged PR. -/
def action_merge_effects (as_user_prs : Bool) (prs : List PR)
    (count : Nat := 100) : List Effect :=
  (action_merge_prs as_user_prs prs count).map .merged

/-- Effects of `action_approve_bot_prs`: one approval per approved PR. -/
def action_approve_effects (count : Nat) (prs : List PR) : List Effect :=
  (action_approve_bot_prs count prs).map .approved

/-- Effect trace of `run_daily_recipe()`.  Inputs: the random draws, the
day of year, the label registry as the recipe's own `ensure_label_exists`
calls see it, and the result of each `gh` list query the recipe's actions
perform (link query pair, user-merge list, approve list, bot-merge list).
The skip gate is checked first; external calls are taken to succeed. -/
def run_daily_recipe (rand : Randomness) (day : Nat) (existingLabels : List String)
    (qIssues : List Issue) (qPRs : List PR)
    (qMergeUser : List PR) (qApprove : List PR) (qMergeBot : List PR) : List Effect :=
  if rand.skipDraw = 1 then []
  else
    ensure_label_effects "has-pr" existingLabels ++
    ensure_label_effects "has-issue" (registryAfterEnsure existingLabels "has-pr") ++
    (if day % 2 = 0 then
      action_create_issues_effects rand.issueCount ((day / 2) % 2 != 0) ++
      action_create_prs_effects rand.botPrCount false ++
      action_link_effects qIssues qPRs
    else
      action_create_prs_effects rand.userPrCount true ++
      action_link_effects qIssues qPRs) ++
    action_merge_effects true qMergeUser ++
    (if day % 2 != 0 then action_approve_effects rand.approveCount qApprove else []) ++
    action_merge_effects false qMergeBot

/-- Effect trace of `main()` with `--action daily`: `main` first runs the
two `ensure_label_exists` calls (before any skip check), then dispatches to
`run_daily_recipe`, whose own label checks see the updated registry. -/
def main_daily (rand : Randomness) (day : Nat) (existingLabels : List String)
    (qIssues : List Issue) (qPRs : List PR)
    (qMergeUser : List PR) (qApprove : List PR) (qMergeBot : List PR) : List Effect :=
  ensure_label_effects "has-pr" existingLabels ++
  ensure_label_effects "has-issue" (registryAfterEnsure existingLabels "has-pr") ++
  run_daily_recipe rand day
    (registryAfterEnsure (registryAfterEnsure existingLabels "has-pr") "has-issue")
    qIssues qPRs qMergeUser qApprove qMergeBot

/-- The PR numbers approved in a trace, in order. -/
def approvedNumbers (trace : List Effect) : List Nat :=
  trace.filterMap fun e =>
    match e with
    | .approved n => some n
    | _ => none

/-! ### Helper lemmas: the pairing loop -/

theorem linkLoop_nil_left (ps : List PR) (c : Nat) : linkLoop [] ps c = [] := by
  cases ps <;> cases c <;> rfl

theorem linkLoop_nil_right (is : List Issue) (c : Nat) : linkLoop is [] c = [] := by
  cases is <;> cases c <;> rfl

theorem linkLoop_eq (is : List Issue) (ps : List PR) (c : Nat) :
    linkLoop is ps c =
      ((ps.zip is).take c).map fun q => (q.1.number, q.2.number) := by
  induction is generalizing ps c with
  | nil => cases ps <;> cases c <;> rfl
  | cons i is ih =>
    cases ps with
    | nil => cases c <;> rfl
    | cons p ps =>
      cases c with
      | zero => rfl
      | succ c => simp [linkLoop, ih]

theorem linkLoop_length (is : List Issue) (ps : List PR) (c : Nat) :
    (linkLoop is ps c).length = min (min is.length ps.length) c := by
  rw [linkLoop_eq]
  simp [List.length_zip]
  omega

/-! ### Helper lemmas: the merge loop -/

theorem mergeLoop_eq (u : Bool) (count : Nat) :
    ∀ (prs : List PR) (processed : Nat), processed + prs.length ≤ count →
      mergeLoop u count prs processed =
        (prs.filter fun p => mergeSelect u p && mergeGate u p).map PR.number := by
  intro prs
  induction prs with
  | nil => intro k _; rfl
  | cons p ps ih =>
    intro k h
    have hk : ¬ count ≤ k := by simp at h; omega
    by_cases hsel : mergeSelect u p
    · by_cases hgate : mergeGate u p
      · have : (k + 1) + ps.length ≤ count := by simp at h; omega
        simp [mergeLoop, hk, hsel, hgate, List.filter_cons, ih (k + 1) this]
      · have : k + ps.length ≤ count := by simp at h; omega
        simp [mergeLoop, hk, hsel, hgate, List.filter_cons, ih k this]
    · have : k + ps.length ≤ count := by simp at h; omega
      simp [mergeLoop, hk, hsel, List.filter_cons, ih k this]

theorem mergeLoop_subset (u : Bool) (count : Nat) :
    ∀ (prs : List PR) (processed : Nat) (n : Nat),
      n ∈ mergeLoop u count prs processed → n ∈ prs.map PR.number := by
  intro prs
  induction prs with
  | nil => intro k n hn; simp [mergeLoop] at hn
  | cons p ps ih =>
    intro k n hn
    by_cases hk : count ≤ k
    · simp [mergeLoop, hk] at hn
    · by_cases hsel : mergeSelect u p
      · by_cases hgate : mergeGate u p
        · simp only [mergeLoop, if_neg hk, if_pos hsel, if_pos hgate,
            List.mem_cons] at hn
          rcases hn with h | h
          · simp [h]
          · simp [List.mem_cons]
            right
            simpa using ih (k + 1) n h
        · simp only [mergeLoop, if_neg hk, if_pos hsel, if_neg hgate] at hn
          simp [List.mem_cons]
          right
          simpa using ih k n hn
      · simp only [mergeLoop, if_neg hk, if_neg hsel] at hn
        simp [List.mem_cons]
        right
        simpa using ih k n hn

/-! ### Claim C1 -/

/-- C1: given a sorted list of `m` open unlinked issues, a sorted list of
`n` open unlinked PRs, and a cap `c`, the pairing loop forms exactly
`min(m, n, c)` pairs; the pair list is the element-wise zip of the two list
heads (so the `i`-th pair joins the `i`-th smallest-numbered issue with the
`i`-th smallest-numbered PR, each item consumed at most once); and if
either list is empty, zero pairs form. -/
theorem C1_pairing (is : List Issue) (ps : List PR) (c : Nat)
    (hi : List.Sorted issueLE is) (hp : List.Sorted prLE ps) :
    (linkLoop is ps c).length = min (min is.length ps.length) c ∧
    linkLoop is ps c =
      ((ps.zip is).take c).map (fun q => (q.1.number, q.2.number)) ∧
    ((is = [] ∨ ps = []) → linkLoop is ps c = []) := by
  refine ⟨linkLoop_length is ps c, linkLoop_eq is ps c, ?_⟩
  rintro (rfl | rfl)
  · exact linkLoop_nil_left ps c
  · exact linkLoop_nil_right is c

/-- Concrete instance of C1 (the spec §8 scenario): three unlinked issues
#10, #11, #12 and two unlinked PRs #20, #21 yield exactly the pairs
(#20, #10), (#21, #11). -/
theorem C1_pairing_witness :
    List.Sorted issueLE [⟨10, [], "a"⟩, ⟨11, [], "b"⟩, ⟨12, [], "c"⟩] ∧
    List.Sorted prLE
      [⟨20, [], "auto/bot-pr-1", none, ""⟩, ⟨21, [], "auto/bot-pr-2", none, ""⟩] ∧
    (linkLoop [⟨10, [], "a"⟩, ⟨11, [], "b"⟩, ⟨12, [], "c"⟩]
      [⟨20, [], "auto/bot-pr-1", none, ""⟩, ⟨21, [], "auto/bot-pr-2", none, ""⟩]
      100).length = min (min 3 2) 100 ∧
    linkLoop [⟨10, [], "a"⟩, ⟨11, [], "b"⟩, ⟨12, [], "c"⟩]
      [⟨20, [], "auto/bot-pr-1", none, ""⟩, ⟨21, [], "auto/bot-pr-2", none, ""⟩]
      100 = [(20, 10), (21, 11)] := by
  have h := C1_pairing [⟨10, [], "a"⟩, ⟨11, [], "b"⟩, ⟨12, [], "c"⟩]
    [⟨20, [], "auto/bot-pr-1", none, ""⟩, ⟨21, [], "auto/bot-pr-2", none, ""⟩]
    100 (by decide) (by decide)
  exact ⟨by decide, by decide, h.1, by decide⟩

/-! ### Claim C2 -/

/-- C2: in one invocation of the merge operation over a listed PR page that
fits under the cap: the merged PRs are exactly the listed PRs whose branch
name contains the class tag, which carry the `has-issue` label, and which
pass the gate (user class: always; bot class: review decision `APPROVED`).
In particular a linked user-class PR is merged unconditionally; a linked
bot-class PR is merged exactly when its review decision is `APPROVED`, and
otherwise it is skipped and never merged within the invocation. -/
theorem C2_merge_gating (prs : List PR) (count : Nat)
    (hlen : prs.length ≤ count)
    (hnd : (prs.map PR.number).Nodup) :
    (∀ u, action_merge_prs u prs count =
      (prs.filter fun p => mergeSelect u p && mergeGate u p).map PR.number) ∧
    (∀ p ∈ prs, mergeSelect true p = true →
      p.number ∈ action_merge_prs true prs count) ∧
    (∀ p ∈ prs, mergeSelect false p = true →
      p.reviewDecision = some "APPROVED" →
      p.number ∈ action_merge_prs false prs count) ∧
    (∀ p ∈ prs, mergeSelect false p = true →
      p.reviewDecision ≠ some "APPROVED" →
      p.number ∉ action_merge_prs false prs count) := by
  have heq : ∀ u, action_merge_prs u prs count =
      (prs.filter fun p => mergeSelect u p && mergeGate u p).map PR.number :=
    fun u => mergeLoop_eq u count prs 0 (by omega)
  refine ⟨heq, ?_, ?_, ?_⟩
  · intro p hp hsel
    rw [heq]
    exact List.mem_map_of_mem _ (List.mem_filter.2 ⟨hp, by simp [hsel, mergeGate]⟩)
  · intro p hp hsel hdec
    rw [heq]
    exact List.mem_map_of_mem _
      (List.mem_filter.2 ⟨hp, by simp [hsel, mergeGate, hdec]⟩)
  · intro p hp hsel hdec hmem
    rw [heq] at hmem
    rcases List.mem_map.1 hmem with ⟨q, hq, hqn⟩
    have hqmem : q ∈ prs := (List.mem_filter.1 hq).1
    have hqgate : mergeGate false q = true := by
      have := (List.mem_filter.1 hq).2
      simp at this
      exact this.2
    have hqdec : q.reviewDecision = some "APPROVED" := by
      simpa [mergeGate] using hqgate
    have : q = p := List.inj_on_of_nodup_map hnd hqmem hp hqn
    exact hdec (this ▸ hqdec)

/-- Concrete instance of C2: among three listed linked PRs — an approved
bot PR #5, an unapproved bot PR #6, and a user PR #7 — the bot-class pass
merges exactly #5 and the user-class pass merges exactly #7. -/
theorem C2_merge_gating_witness :
    ([⟨5, ["has-issue"], "auto/bot-pr-3", some "APPROVED", ""⟩,
      ⟨6, ["has-issue"], "auto/bot-pr-4", some "CHANGES_REQUESTED", ""⟩,
      ⟨7, ["has-issue"], "auto/user-pr-4", none, ""⟩] : List PR).length ≤ 100 ∧
    (([⟨5, ["has-issue"], "auto/bot-pr-3", some "APPROVED", ""⟩,
      ⟨6, ["has-issue"], "auto/bot-pr-4", some "CHANGES_REQUESTED", ""⟩,
      ⟨7, ["has-issue"], "auto/user-pr-4", none, ""⟩] : List PR).map PR.number).Nodup ∧
    action_merge_prs false
      [⟨5, ["has-issue"], "auto/bot-pr-3", some "APPROVED", ""⟩,
       ⟨6, ["has-issue"], "auto/bot-pr-4", some "CHANGES_REQUESTED", ""⟩,
       ⟨7, ["has-issue"], "auto/user-pr-4", none, ""⟩] 100 = [5] ∧
    action_merge_prs true
      [⟨5, ["has-issue"], "auto/bot-pr-3", some "APPROVED", ""⟩,
       ⟨6, ["has-issue"], "auto/bot-pr-4", some "CHANGES_REQUESTED", ""⟩,
       ⟨7, ["has-issue"], "auto/user-pr-4", none, ""⟩] 100 = [7] := by
  have h := C2_merge_gating
    [⟨5, ["has-issue"], "auto/bot-pr-3", some "APPROVED", ""⟩,
     ⟨6, ["has-issue"], "auto/bot-pr-4", some "CHANGES_REQUESTED", ""⟩,
     ⟨7, ["has-issue"], "auto/user-pr-4", none, ""⟩] 100 (by decide) (by decide)
  refine ⟨by decide, by decide, ?_, ?_⟩
  · rw [h.1 false]; decide
  · rw [h.1 true]; decide

/-! ### Helper lemmas: decimal rendering and `strip` -/

theorem decDigits_append (fuel : Nat) :
    ∀ (n : Nat) (xs ys : List Char),
      decDigits fuel n (xs ++ ys) = decDigits fuel n xs ++ ys := by
  induction fuel with
  | zero => intro n xs ys; rfl
  | succ fuel ih =>
    intro n xs ys
    by_cases h : n < 10
    · simp [decDigits, h]
    · simp only [decDigits, if_neg h]
      rw [show digitChar (n % 10) :: (xs ++ ys) =
        (digitChar (n % 10) :: xs) ++ ys from rfl, ih]

theorem decDigits_shape (fuel n : Nat) :
    ∃ ds m, decDigits (fuel + 1) n [] = ds ++ [digitChar m] ∧ m < 10 := by
  by_cases h : n < 10
  · exact ⟨[], n, by simp [decDigits, h], h⟩
  · refine ⟨decDigits fuel (n / 10) [], n % 10, ?_, Nat.mod_lt _ (by norm_num)⟩
    simp only [decDigits, if_neg h]
    rw [show (digitChar (n % 10) :: ([] : List Char)) =
      [] ++ [digitChar (n % 10)] from rfl, decDigits_append]
    simp

theorem digitChar_not_ws (m : Nat) (h : m < 10) :
    pythonWhitespace (digitChar m) = false := by
  interval_cases m <;> decide

theorem dropWhile_head_false {p : Char → Bool} :
    ∀ (l : List Char), (∀ c ∈ l.take 1, p c = false) → l.dropWhile p = l := by
  intro l h
  cases l with
  | nil => rfl
  | cons a l =>
    have ha : p a = false := h a (by simp)
    simp [List.dropWhile_cons, ha]

theorem pyStrip_right_keep (X : List Char) (d : Char)
    (hd : pythonWhitespace d = false) :
    ((X ++ [d]).reverse.dropWhile pythonWhitespace).reverse = X ++ [d] := by
  rw [List.reverse_append]
  simp [List.dropWhile_cons, hd]

/-! ### Claim C7 -/

/-- C7 as stated is refuted: for the body `" x"` and issue 1, the final
`.strip()` in `link_pr_to_issue` removes the body's leading whitespace, so
the new body is `"x\n\nFixes #1"`, which does not contain the original body
`" x"` at all. -/
theorem C7_refuted :
    link_new_body (some " x") 1 = "x\n\nFixes #1" ∧
    strContains (link_new_body (some " x") 1) " x" = false := by
  constructor
  · decide
  · decide

/-- C7 amended: for every PR body `b` that does not begin with (Python)
whitespace and every issue number `N`, the new body is exactly `b` followed
by the separator `"\n\n"` and the token `"Fixes #N"` (just `"Fixes #N"`
when `b` is empty); bodies beginning with whitespace instead have that
leading whitespace removed by the final `.strip()`. -/
theorem C7_amended (b : String) (N : Nat)
    (hb : ∀ c ∈ b.toList.take 1, pythonWhitespace c = false) :
    link_new_body (some b) N =
      (if b = "" then "" else b ++ "\n\n") ++ "Fixes #" ++ natToDecimal N := by
  obtain ⟨ds, m, hds, hm⟩ := decDigits_shape N N
  have hmws : pythonWhitespace (digitChar m) = false := digitChar_not_ws m hm
  by_cases hb0 : b = ""
  · subst hb0
    apply String.ext
    show pyStripList (([] : List Char) ++ ("\n\nFixes #".toList ++ decDigits (N + 1) N [])) =
      ("" ++ "Fixes #" ++ natToDecimal N).data
    rw [List.nil_append]
    rw [show "\n\nFixes #".toList ++ decDigits (N + 1) N [] =
      '\n' :: '\n' :: ("Fixes #".toList ++ decDigits (N + 1) N []) from rfl]
    unfold pyStripList
    rw [List.dropWhile_cons_of_pos (by decide), List.dropWhile_cons_of_pos (by decide)]
    have hhead : ∀ x ∈ ("Fixes #".toList ++ decDigits (N + 1) N []).take 1,
        pythonWhitespace x = false := by
      rw [show "Fixes #".toList ++ decDigits (N + 1) N [] =
        'F' :: ("ixes #".toList ++ decDigits (N + 1) N []) from rfl]
      intro x hx
      simp at hx
      subst hx
      decide
    rw [dropWhile_head_false ("Fixes #".toList ++ decDigits (N + 1) N []) hhead]
    rw [hds, show "Fixes #".toList ++ (ds ++ [digitChar m]) =
      ("Fixes #".toList ++ ds) ++ [digitChar m] from (List.append_assoc _ _ _).symm]
    rw [pyStrip_right_keep _ _ hmws]
    show ("Fixes #".toList ++ ds) ++ [digitChar m] =
      "".data ++ "Fixes #".data ++ decDigits (N + 1) N []
    rw [hds]
    simp [String.toList]
  · rw [if_neg hb0]
    apply String.ext
    show pyStripList (b.toList ++ ("\n\nFixes #".toList ++ decDigits (N + 1) N [])) =
      ((b ++ "\n\n") ++ "Fixes #" ++ natToDecimal N).data
    obtain ⟨c, bs, hcb⟩ : ∃ c bs, b.toList = c :: bs := by
      cases hbl : b.toList with
      | nil =>
        exfalso
        apply hb0
        apply String.ext
        exact hbl
      | cons c bs => exact ⟨c, bs, rfl⟩
    have hc : pythonWhitespace c = false := hb c (by rw [hcb]; simp)
    have hheadL : ∀ x ∈ (b.toList ++ ("\n\nFixes #".toList ++ decDigits (N + 1) N [])).take 1,
        pythonWhitespace x = false := by
      rw [hcb]
      intro x hx
      simp at hx
      subst hx
      exact hc
    unfold pyStripList
    rw [dropWhile_head_false (b.toList ++ ("\n\nFixes #".toList ++ decDigits (N + 1) N []))
      hheadL]
    rw [hds, show b.toList ++ ("\n\nFixes #".toList ++ (ds ++ [digitChar m])) =
      (b.toList ++ ("\n\nFixes #".toList ++ ds)) ++ [digitChar m] by simp]
    rw [pyStrip_right_keep _ _ hmws]
    show (b.toList ++ ("\n\nFixes #".toList ++ ds)) ++ [digitChar m] =
      ((b.data ++ "\n\n".data) ++ "Fixes #".data) ++ (natToDecimal N).data
    rw [show (natToDecimal N).data = decDigits (N + 1) N [] from rfl, hds]
    rw [show ("\n\nFixes #".toList : List Char) = "\n\n".data ++ "Fixes #".data from rfl]
    simp [String.toList]

/-- Concrete instance of the amended C7: body `"hello"`, issue 345. -/
theorem C7_amended_witness :
    (∀ c ∈ "hello".toList.take 1, pythonWhitespace c = false) ∧
    link_new_body (some "hello") 345 =
      (if "hello" = "" then "" else "hello" ++ "\n\n") ++ "Fixes #" ++ natToDecimal 345 :=
  ⟨by decide, C7_amended "hello" 345 (by decide)⟩

/-! ### Claim C8 -/

/-- C8 as stated is refuted: when the `gh label list` call inside
`ensure_label_exists` fails, the surrounding `try/except` swallows the
failure — the function returns normally with only a warning printed — so it
is not true that no failed external call is swallowed anywhere in the
program. -/
theorem C8_refuted :
    ensure_label_exists "has-pr"
      (.error ⟨["gh", "label", "list", "--repo", "o/r", "--json", "name"], "", "boom"⟩)
      (.ok ()) = .ok [.warned] := rfl

/-- C8 amended: every external call that exits non-zero is surfaced by
`run_command` with the failing command and its captured stdout and stderr,
then re-raised, and callers propagate it — except `ensure_label_exists`,
whose `try/except` catches any failure of its label listing or creation
calls, prints a warning, and returns normally, so those failures never
propagate. -/
theorem C8_amended (cmd : List String) (o : CmdOutcome) (h : o.exitCode ≠ 0)
    (name : String) (listRes : Except CmdFailure (List String))
    (createRes : Except CmdFailure Unit) :
    run_command cmd o = .error ⟨cmd, o.stdout, o.stderr⟩ ∧
    ∃ effs, ensure_label_exists name listRes createRes = .ok effs := by
  constructor
  · simp [run_command, h]
  · cases listRes with
    | error e => exact ⟨[.warned], rfl⟩
    | ok ex =>
      by_cases hm : name ∈ ex
      · exact ⟨[], by simp [ensure_label_exists, hm]⟩
      · cases createRes with
        | error e => exact ⟨[.warned], by simp [ensure_label_exists, hm]⟩
        | ok u => exact ⟨[.labelCreated name], by simp [ensure_label_exists, hm]⟩

/-- Concrete instance of the amended C8: a merge call exiting 1 is re-raised
with its command and streams, while `ensure_label_exists` returns normally. -/
theorem C8_amended_witness :
    (⟨1, "", "boom"⟩ : CmdOutcome).exitCode ≠ 0 ∧
    run_command ["gh", "pr", "merge", "42"] ⟨1, "", "boom"⟩ =
      .error ⟨["gh", "pr", "merge", "42"], "", "boom"⟩ ∧
    ∃ effs, ensure_label_exists "has-pr" (.ok []) (.ok ()) = .ok effs := by
  have h := C8_amended ["gh", "pr", "merge", "42"] ⟨1, "", "boom"⟩ (by decide)
    "has-pr" (.ok []) (.ok ())
  exact ⟨by decide, h.1, h.2⟩

/-! ### Helper lemmas: membership in the recipe's effect chunks -/

@[simp] theorem mem_ensure_label_effects (e : Effect) (n : String) (ex : List String) :
    e ∈ ensure_label_effects n ex ↔ (n ∉ ex ∧ e = .labelCreated n) := by
  by_cases h : n ∈ ex <;> simp [ensure_label_effects, ensure_label_exists, h]

@[simp] theorem mem_create_issues_effects (e : Effect) (c : Nat) (u : Bool) :
    e ∈ action_create_issues_effects c u ↔ ∃ i, i < c ∧ e = .issueCreated u i := by
  simp [action_create_issues_effects, eq_comm]

@[simp] theorem mem_create_prs_effects (e : Effect) (c : Nat) (u : Bool) :
    e ∈ action_create_prs_effects c u ↔ ∃ i, i < c ∧ e = .prCreated u i := by
  simp [action_create_prs_effects, eq_comm]

@[simp] theorem mem_link_effects (e : Effect) (qI : List Issue) (qP : List PR) (c : Nat) :
    e ∈ action_link_effects qI qP c ↔
      ∃ q, q ∈ action_link_prs_issues qI qP c ∧ e = .linked q.1 q.2 := by
  simp [action_link_effects, eq_comm]

@[simp] theorem mem_merge_effects (e : Effect) (u : Bool) (prs : List PR) (c : Nat) :
    e ∈ action_merge_effects u prs c ↔
      ∃ n, n ∈ action_merge_prs u prs c ∧ e = .merged n := by
  simp [action_merge_effects, eq_comm]

@[simp] theorem mem_approve_effects (e : Effect) (c : Nat) (prs : List PR) :
    e ∈ action_approve_effects c prs ↔
      ∃ n, n ∈ action_approve_bot_prs c prs ∧ e = .approved n := by
  simp [action_approve_effects, eq_comm]

/-! ### Helper lemmas: membership of specific effects in the full recipe -/

theorem issueCreated_mem_recipe (rand : Randomness) (day : Nat) (labels : List String)
    (qI : List Issue) (qP : List PR) (qMU qA qMB : List PR) (b : Bool) (i : Nat) :
    Effect.issueCreated b i ∈ run_daily_recipe rand day labels qI qP qMU qA qMB ↔
      (rand.skipDraw ≠ 1 ∧ day % 2 = 0 ∧ b = ((day / 2) % 2 != 0) ∧
        i < rand.issueCount) := by
  by_cases hskip : rand.skipDraw = 1
  · simp [run_daily_recipe, hskip]
  · by_cases hday : day % 2 = 0
    · simp [run_daily_recipe, hskip, hday]
      exact and_comm
    · simp [run_daily_recipe, hskip, hday]

theorem prCreated_mem_recipe (rand : Randomness) (day : Nat) (labels : List String)
    (qI : List Issue) (qP : List PR) (qMU qA qMB : List PR) (b : Bool) (i : Nat) :
    Effect.prCreated b i ∈ run_daily_recipe rand day labels qI qP qMU qA qMB ↔
      (rand.skipDraw ≠ 1 ∧
        ((day % 2 = 0 ∧ b = false ∧ i < rand.botPrCount) ∨
         (day % 2 ≠ 0 ∧ b = true ∧ i < rand.userPrCount))) := by
  by_cases hskip : rand.skipDraw = 1
  · simp [run_daily_recipe, hskip]
  · by_cases hday : day % 2 = 0
    · simp [run_daily_recipe, hskip, hday]
      exact and_comm
    · simp [run_daily_recipe, hskip, hday]
      exact and_comm

theorem approved_mem_recipe (rand : Randomness) (day : Nat) (labels : List String)
    (qI : List Issue) (qP : List PR) (qMU qA qMB : List PR) (n : Nat) :
    Effect.approved n ∈ run_daily_recipe rand day labels qI qP qMU qA qMB ↔
      (rand.skipDraw ≠ 1 ∧ day % 2 ≠ 0 ∧
        n ∈ action_approve_bot_prs rand.approveCount qA) := by
  by_cases hskip : rand.skipDraw = 1
  · simp [run_daily_recipe, hskip]
  · by_cases hday : day % 2 = 0
    · simp [run_daily_recipe, hskip, hday]
    · simp [run_daily_recipe, hskip, hday]
      intro _
      omega

/-! ### Helper lemmas: approved numbers of each chunk -/

@[simp] theorem approvedNumbers_append (a b : List Effect) :
    approvedNumbers (a ++ b) = approvedNumbers a ++ approvedNumbers b := by
  simp [approvedNumbers]

@[simp] theorem approvedNumbers_nil : approvedNumbers [] = [] := rfl

@[simp] theorem approvedNumbers_ensure (n : String) (ex : List String) :
    approvedNumbers (ensure_label_effects n ex) = [] := by
  by_cases h : n ∈ ex <;>
    simp [ensure_label_effects, ensure_label_exists, h, approvedNumbers]

@[simp] theorem approvedNumbers_create_issues (c : Nat) (u : Bool) :
    approvedNumbers (action_create_issues_effects c u) = [] := by
  simp [approvedNumbers, action_create_issues_effects, List.filterMap_map,
    List.filterMap_eq_nil_iff]

@[simp] theorem approvedNumbers_create_prs (c : Nat) (u : Bool) :
    approvedNumbers (action_create_prs_effects c u) = [] := by
  simp [approvedNumbers, action_create_prs_effects, List.filterMap_map,
    List.filterMap_eq_nil_iff]

@[simp] theorem approvedNumbers_link (qI : List Issue) (qP : List PR) (c : Nat) :
    approvedNumbers (action_link_effects qI qP c) = [] := by
  simp [approvedNumbers, action_link_effects, List.filterMap_map,
    List.filterMap_eq_nil_iff]

@[simp] theorem approvedNumbers_merge (u : Bool) (prs : List PR) (c : Nat) :
    approvedNumbers (action_merge_effects u prs c) = [] := by
  simp [approvedNumbers, action_merge_effects, List.filterMap_map,
    List.filterMap_eq_nil_iff]

@[simp] theorem approvedNumbers_approve (c : Nat) (prs : List PR) :
    approvedNumbers (action_approve_effects c prs) =
      action_approve_bot_prs c prs := by
  simp only [approvedNumbers, action_approve_effects, List.filterMap_map]
  exact List.filterMap_some _

/-! ### Claim C3 -/

/-- C3 as stated is refuted: with the skip draw equal to the designated
outcome (1), a `--action daily` invocation of `main` still produces labels
when the `has-pr` / `has-issue` labels do not yet exist, because `main`
runs its two `ensure_label_exists` calls before `run_daily_recipe`
evaluates the skip gate. -/
theorem C3_refuted :
    (⟨1, 1, 1, 1, 1⟩ : Randomness).skipDraw = 1 ∧
    Effect.labelCreated "has-pr" ∈ main_daily ⟨1, 1, 1, 1, 1⟩ 5 [] [] [] [] [] [] ∧
    main_daily ⟨1, 1, 1, 1, 1⟩ 5 [] [] [] [] [] [] ≠ [] := by
  refine ⟨rfl, ?_, ?_⟩ <;> decide

/-- C3 amended: when the skip-gate draw equals the designated 1-in-7
outcome, the recipe itself aborts before any action (its effect trace is
empty), so the invocation produces no issues, PRs, links, comments,
approvals, or merges and applies no labels to items; the only effects the
full `--action daily` invocation can produce are the creation of the
`has-pr` / `has-issue` label definitions by the startup check in `main`,
which runs before the skip gate. -/
theorem C3_amended (rand : Randomness) (day : Nat) (labels : List String)
    (qI : List Issue) (qP : List PR) (qMU qA qMB : List PR)
    (h : rand.skipDraw = 1) :
    run_daily_recipe rand day labels qI qP qMU qA qMB = [] ∧
    ∀ e ∈ main_daily rand day labels qI qP qMU qA qMB,
      e = .labelCreated "has-pr" ∨ e = .labelCreated "has-issue" := by
  constructor
  · simp [run_daily_recipe, h]
  · intro e he
    simp [main_daily, run_daily_recipe, h] at he
    rcases he with ⟨_, he⟩ | ⟨_, he⟩
    · exact Or.inl he
    · exact Or.inr he

/-- Concrete instance of the amended C3: skip draw 1 on day 5 with an empty
label registry. -/
theorem C3_amended_witness :
    (⟨1, 1, 1, 1, 1⟩ : Randomness).skipDraw = 1 ∧
    run_daily_recipe ⟨1, 1, 1, 1, 1⟩ 5 [] [] [] [] [] [] = [] ∧
    ∀ e ∈ main_daily ⟨1, 1, 1, 1, 1⟩ 5 [] [] [] [] [] [],
      e = .labelCreated "has-pr" ∨ e = .labelCreated "has-issue" := by
  have h := C3_amended ⟨1, 1, 1, 1, 1⟩ 5 [] [] [] [] [] [] rfl
  exact ⟨rfl, h.1, h.2⟩

/-! ### Claim C5 -/

/-- C5: in a non-skipped daily run whose random counts are drawn from
their 1-based ranges, an even day-of-year fabricates both issues and
bot-authored PRs, while an odd day fabricates user-authored PRs and no
issues (and no bot-authored PRs). -/
theorem C5_parity_profile (rand : Randomness) (day : Nat) (labels : List String)
    (qI : List Issue) (qP : List PR) (qMU qA qMB : List PR)
    (hskip : rand.skipDraw ≠ 1) (hic : 1 ≤ rand.issueCount)
    (hbc : 1 ≤ rand.botPrCount) (huc : 1 ≤ rand.userPrCount) :
    (day % 2 = 0 →
      (∃ b i, Effect.issueCreated b i ∈
        run_daily_recipe rand day labels qI qP qMU qA qMB) ∧
      (∃ i, Effect.prCreated false i ∈
        run_daily_recipe rand day labels qI qP qMU qA qMB)) ∧
    (day % 2 ≠ 0 →
      (∀ b i, Effect.issueCreated b i ∉
        run_daily_recipe rand day labels qI qP qMU qA qMB) ∧
      (∃ i, Effect.prCreated true i ∈
        run_daily_recipe rand day labels qI qP qMU qA qMB) ∧
      (∀ i, Effect.prCreated false i ∉
        run_daily_recipe rand day labels qI qP qMU qA qMB)) := by
  constructor
  · intro hday
    refine ⟨⟨((day / 2) % 2 != 0), 0, ?_⟩, ⟨0, ?_⟩⟩
    · exact (issueCreated_mem_recipe rand day labels qI qP qMU qA qMB _ 0).2
        ⟨hskip, hday, rfl, by omega⟩
    · exact (prCreated_mem_recipe rand day labels qI qP qMU qA qMB false 0).2
        ⟨hskip, Or.inl ⟨hday, rfl, by omega⟩⟩
  · intro hday
    refine ⟨?_, ⟨0, ?_⟩, ?_⟩
    · intro b i hmem
      exact hday
        ((issueCreated_mem_recipe rand day labels qI qP qMU qA qMB b i).1 hmem).2.1
    · exact (prCreated_mem_recipe rand day labels qI qP qMU qA qMB true 0).2
        ⟨hskip, Or.inr ⟨hday, rfl, by omega⟩⟩
    · intro i hmem
      rcases ((prCreated_mem_recipe rand day labels qI qP qMU qA qMB false i).1
          hmem).2 with ⟨hd, _, _⟩ | ⟨_, hb, _⟩
      · exact hday hd
      · exact Bool.false_ne_true hb

/-- Concrete instance of C5: an even day (4) fabricates issues and bot
PRs. -/
theorem C5_parity_profile_witness :
    (⟨2, 1, 1, 1, 1⟩ : Randomness).skipDraw ≠ 1 ∧
    (∃ b i, Effect.issueCreated b i ∈
      run_daily_recipe ⟨2, 1, 1, 1, 1⟩ 4 [] [] [] [] [] []) ∧
    (∃ i, Effect.prCreated false i ∈
      run_daily_recipe ⟨2, 1, 1, 1, 1⟩ 4 [] [] [] [] [] []) := by
  have h := C5_parity_profile ⟨2, 1, 1, 1, 1⟩ 4 [] [] [] [] [] []
    (by decide) (by decide) (by decide) (by decide)
  exact ⟨by decide, (h.1 (by decide)).1, (h.1 (by decide)).2⟩

/-! ### Claim C6 -/

/-- C6: in a non-skipped run on an even day, the fabricated issues carry
the user identity exactly when `(day // 2) % 2 != 0` and the bot identity
exactly when `(day // 2) % 2 == 0`. -/
theorem C6_issue_identity (rand : Randomness) (day : Nat) (labels : List String)
    (qI : List Issue) (qP : List PR) (qMU qA qMB : List PR)
    (hskip : rand.skipDraw ≠ 1) (heven : day % 2 = 0)
    (hic : 1 ≤ rand.issueCount) :
    ((∃ i, Effect.issueCreated true i ∈
        run_daily_recipe rand day labels qI qP qMU qA qMB) ↔ (day / 2) % 2 ≠ 0) ∧
    ((∃ i, Effect.issueCreated false i ∈
        run_daily_recipe rand day labels qI qP qMU qA qMB) ↔ (day / 2) % 2 = 0) := by
  constructor
  · constructor
    · rintro ⟨i, hi⟩
      have hb :=
        ((issueCreated_mem_recipe rand day labels qI qP qMU qA qMB true i).1 hi).2.2.1
      intro h0
      rw [h0] at hb
      simp at hb
    · intro hne
      refine ⟨0, (issueCreated_mem_recipe rand day labels qI qP qMU qA qMB true 0).2
        ⟨hskip, heven, ?_, by omega⟩⟩
      exact (bne_iff_ne.2 hne).symm
  · constructor
    · rintro ⟨i, hi⟩
      have hb :=
        ((issueCreated_mem_recipe rand day labels qI qP qMU qA qMB false i).1 hi).2.2.1
      by_contra h0
      rw [bne_iff_ne.2 h0] at hb
      exact Bool.false_ne_true hb
    · intro h0
      refine ⟨0, (issueCreated_mem_recipe rand day labels qI qP qMU qA qMB false 0).2
        ⟨hskip, heven, ?_, by omega⟩⟩
      simp [h0]

/-- Concrete instance of C6: day 4 has `(4 / 2) % 2 == 0`, so its issues
are bot-authored. -/
theorem C6_issue_identity_witness :
    (⟨2, 1, 1, 1, 1⟩ : Randomness).skipDraw ≠ 1 ∧ 4 % 2 = 0 ∧
    ((∃ i, Effect.issueCreated false i ∈
        run_daily_recipe ⟨2, 1, 1, 1, 1⟩ 4 [] [] [] [] [] []) ↔ (4 / 2) % 2 = 0) := by
  have h := C6_issue_identity ⟨2, 1, 1, 1, 1⟩ 4 [] [] [] [] [] []
    (by decide) (by decide) (by decide)
  exact ⟨by decide, by decide, h.2⟩

/-! ### Claim C10 -/

/-- C10: in a non-skipped daily run, the bot-PR approval step runs only on
odd days: on an even day no approval effect occurs at all, and on an odd
day the approvals are exactly those of `action_approve_bot_prs` applied to
the drawn count; with the count drawn from 1–2, at most two PRs are
approved. -/
theorem C10_approval_only_odd (rand : Randomness) (day : Nat) (labels : List String)
    (qI : List Issue) (qP : List PR) (qMU qA qMB : List PR)
    (hskip : rand.skipDraw ≠ 1) :
    (day % 2 = 0 → ∀ n, Effect.approved n ∉
      run_daily_recipe rand day labels qI qP qMU qA qMB) ∧
    (day % 2 ≠ 0 →
      approvedNumbers (run_daily_recipe rand day labels qI qP qMU qA qMB) =
        action_approve_bot_prs rand.approveCount qA) ∧
    (rand.approveCount ≤ 2 →
      (approvedNumbers (run_daily_recipe rand day labels qI qP qMU qA qMB)).length ≤ 2) := by
  have hodd : day % 2 ≠ 0 →
      approvedNumbers (run_daily_recipe rand day labels qI qP qMU qA qMB) =
        action_approve_bot_prs rand.approveCount qA := by
    intro hday
    have h1 : day % 2 = 1 := by omega
    simp [run_daily_recipe, hskip, hday, h1]
  have heven : day % 2 = 0 →
      approvedNumbers (run_daily_recipe rand day labels qI qP qMU qA qMB) = [] := by
    intro hday
    simp [run_daily_recipe, hskip, hday]
  refine ⟨?_, hodd, ?_⟩
  · intro hday n hmem
    exact ((approved_mem_recipe rand day labels qI qP qMU qA qMB n).1 hmem).2.1 hday
  · intro hc
    by_cases hday : day % 2 = 0
    · simp [heven hday]
    · rw [hodd hday]
      simp [action_approve_bot_prs]
      omega

/-- Concrete instance of C10: day 4 (even) approves nothing; day 5 (odd)
approves the linked bot PRs up to the drawn count. -/
theorem C10_approval_only_odd_witness :
    (⟨2, 1, 1, 1, 2⟩ : Randomness).skipDraw ≠ 1 ∧
    (∀ n, Effect.approved n ∉ run_daily_recipe ⟨2, 1, 1, 1, 2⟩ 4 [] [] [] []
      [⟨30, ["has-issue"], "auto/bot-pr-7", none, ""⟩] []) ∧
    approvedNumbers (run_daily_recipe ⟨2, 1, 1, 1, 2⟩ 5 [] [] [] []
        [⟨30, ["has-issue"], "auto/bot-pr-7", none, ""⟩] []) =
      action_approve_bot_prs 2 [⟨30, ["has-issue"], "auto/bot-pr-7", none, ""⟩] := by
  have h4 := C10_approval_only_odd ⟨2, 1, 1, 1, 2⟩ 4 [] [] [] []
    [⟨30, ["has-issue"], "auto/bot-pr-7", none, ""⟩] [] (by decide)
  have h5 := C10_approval_only_odd ⟨2, 1, 1, 1, 2⟩ 5 [] [] [] []
    [⟨30, ["has-issue"], "auto/bot-pr-7", none, ""⟩] [] (by decide)
  exact ⟨by decide, h4.1 (by decide), h5.2.1 (by decide)⟩

/-! ### Claim C9 -/

/-- C9: every listing query for open issues or PRs carries `--limit 100`,
so pairing, approval, and merge act only on items among the first 100 the
platform returns (the merged and approved PR numbers always come from the
queried list), and a pairing invocation without an explicit count (default
100) links at most 100 pairs. -/
theorem C9_query_limits (repo : String) (issues : List Issue) (prs : List PR)
    (u : Bool) (mprs aprs : List PR) (mcount acount : Nat) :
    ["--limit", "100"] <:+: issue_list_cmd repo ∧
    ["--limit", "100"] <:+: pr_list_cmd repo ∧
    ["--limit", "100"] <:+: merge_pr_list_cmd repo ∧
    ["--limit", "100"] <:+: approve_pr_list_cmd repo ∧
    (action_link_prs_issues issues prs).length ≤ 100 ∧
    action_merge_prs u mprs mcount ⊆ mprs.map PR.number ∧
    action_approve_bot_prs acount aprs ⊆ aprs.map PR.number := by
  refine ⟨?_, ?_, ?_, ?_, ?_, ?_, ?_⟩
  · exact ⟨["gh", "issue", "list", "--repo", repo, "--state", "open",
      "--json", "number,labels,title"], [], by simp [issue_list_cmd]⟩
  · exact ⟨["gh", "pr", "list", "--repo", repo, "--state", "open",
      "--json", "number,labels,title"], [], by simp [pr_list_cmd]⟩
  · exact ⟨["gh", "pr", "list", "--repo", repo, "--state", "open",
      "--json", "number,headRefName,labels,reviews"], [], by simp [merge_pr_list_cmd]⟩
  · exact ⟨["gh", "pr", "list", "--repo", repo, "--state", "open",
      "--json", "number,headRefName,labels"], [], by simp [approve_pr_list_cmd]⟩
  · rw [action_link_prs_issues, linkLoop_length]
    omega
  · intro n hn
    exact mergeLoop_subset u mcount mprs 0 n hn
  · intro n hn
    simp only [action_approve_bot_prs] at hn
    rcases List.mem_map.1 hn with ⟨p, hp, rfl⟩
    have hp2 : p ∈ bot_prs_linked aprs := List.mem_of_mem_take hp
    exact List.mem_map_of_mem _ (List.mem_filter.1 hp2).1

/-! ### Helper definitions and lemmas: the state-level linking fold -/

/-- The per-issue function applied by `link_pr_to_issue` for the pair
`q = (pr_number, issue_number)`: the function mapped by `labelIssue`. -/
def issueUpd (q : Nat × Nat) (i : Issue) : Issue :=
  if i.number = q.2 then { i with labels := addLabel i.labels "has-pr" } else i

/-- The per-PR function applied by `link_pr_to_issue` for the pair `q`:
the `labelPR` map followed by the `setPRBody` map. -/
def prUpd (q : Nat × Nat) (p : PR) : PR :=
  let p1 := if p.number = q.1 then { p with labels := addLabel p.labels "has-issue" } else p
  if p1.number = q.1 then { p1 with body := link_new_body (some p1.body) q.2 } else p1

theorem link_pr_to_issue_issues (s : RepoState) (q : Nat × Nat) :
    (link_pr_to_issue s q.1 q.2).issues = s.issues.map (issueUpd q) := rfl

theorem link_pr_to_issue_prs (s : RepoState) (q : Nat × Nat) :
    (link_pr_to_issue s q.1 q.2).prs = s.prs.map (prUpd q) := by
  show setPRBody (labelPR s.prs q.1 "has-issue") q.1 q.2 = s.prs.map (prUpd q)
  rw [setPRBody, labelPR, List.map_map]
  rfl

theorem foldl_link_issues (pairs : List (Nat × Nat)) (s : RepoState) :
    (pairs.foldl (fun st q => link_pr_to_issue st q.1 q.2) s).issues =
      pairs.foldl (fun l q => l.map (issueUpd q)) s.issues := by
  induction pairs generalizing s with
  | nil => rfl
  | cons q rest ih =>
    rw [List.foldl_cons, List.foldl_cons, ih, link_pr_to_issue_issues]

theorem foldl_link_prs (pairs : List (Nat × Nat)) (s : RepoState) :
    (pairs.foldl (fun st q => link_pr_to_issue st q.1 q.2) s).prs =
      pairs.foldl (fun l q => l.map (prUpd q)) s.prs := by
  induction pairs generalizing s with
  | nil => rfl
  | cons q rest ih =>
    rw [List.foldl_cons, List.foldl_cons, ih, link_pr_to_issue_prs]

theorem foldl_map_eq_map_foldl {α β : Type} (f : β → α → α) (pairs : List β)
    (l : List α) :
    pairs.foldl (fun l q => l.map (f q)) l =
      l.map (fun x => pairs.foldl (fun x q => f q x) x) := by
  induction pairs generalizing l with
  | nil => simp
  | cons q rest ih =>
    simp only [List.foldl_cons]
    rw [ih, List.map_map]
    rfl

theorem addLabel_mem_self (ls : List String) (lab : String) : lab ∈ addLabel ls lab := by
  by_cases h : lab ∈ ls <;> simp [addLabel, h]

theorem issueUpd_number (q : Nat × Nat) (i : Issue) :
    (issueUpd q i).number = i.number := by
  unfold issueUpd
  split <;> rfl

theorem prUpd_number (q : Nat × Nat) (p : PR) : (prUpd q p).number = p.number := by
  unfold prUpd
  by_cases h : p.number = q.1 <;> simp [h]

theorem prUpd_labels (q : Nat × Nat) (p : PR) :
    (prUpd q p).labels =
      if p.number = q.1 then addLabel p.labels "has-issue" else p.labels := by
  unfold prUpd
  by_cases h : p.number = q.1 <;> simp [h]

theorem foldl_issueUpd_has (pairs : List (Nat × Nat)) (i : Issue) :
    "has-pr" ∈ (pairs.foldl (fun x q => issueUpd q x) i).labels ↔
      ("has-pr" ∈ i.labels ∨ i.number ∈ pairs.map Prod.snd) := by
  induction pairs generalizing i with
  | nil => simp
  | cons q rest ih =>
    rw [List.foldl_cons, ih, List.map_cons, issueUpd_number]
    by_cases hq : i.number = q.2
    · constructor
      · intro _
        right
        rw [hq]
        exact List.mem_cons_self _ _
      · intro _
        left
        show "has-pr" ∈ (issueUpd q i).labels
        simp only [issueUpd, if_pos hq]
        exact addLabel_mem_self _ _
    · have : (issueUpd q i).labels = i.labels := by simp [issueUpd, hq]
      rw [this]
      simp [List.mem_cons, hq]

theorem foldl_prUpd_has (pairs : List (Nat × Nat)) (p : PR) :
    "has-issue" ∈ (pairs.foldl (fun x q => prUpd q x) p).labels ↔
      ("has-issue" ∈ p.labels ∨ p.number ∈ pairs.map Prod.fst) := by
  induction pairs generalizing p with
  | nil => simp
  | cons q rest ih =>
    rw [List.foldl_cons, ih, List.map_cons, prUpd_number]
    by_cases hq : p.number = q.1
    · constructor
      · intro _
        right
        rw [hq]
        exact List.mem_cons_self _ _
      · intro _
        left
        rw [prUpd_labels, if_pos hq]
        exact addLabel_mem_self _ _
    · rw [prUpd_labels, if_neg hq]
      simp [List.mem_cons, hq]

theorem unlinked_issues_nil_after (s : RepoState) (pairs : List (Nat × Nat))
    (hcover : ∀ i ∈ s.issues, "has-pr" ∉ i.labels → i.number ∈ pairs.map Prod.snd) :
    get_open_issues_without_pr
      ((pairs.foldl (fun st q => link_pr_to_issue st q.1 q.2) s).issues) = [] := by
  unfold get_open_issues_without_pr
  have hfil : ((pairs.foldl (fun st q => link_pr_to_issue st q.1 q.2) s).issues).filter
      (fun i => !(i.labels.contains "has-pr")) = [] := by
    rw [foldl_link_issues, foldl_map_eq_map_foldl, List.filter_eq_nil_iff]
    intro a ha
    rcases List.mem_map.1 ha with ⟨i, hi, rfl⟩
    have hmem : "has-pr" ∈ (pairs.foldl (fun x q => issueUpd q x) i).labels := by
      rw [foldl_issueUpd_has]
      by_cases hhad : "has-pr" ∈ i.labels
      · exact Or.inl hhad
      · exact Or.inr (hcover i hi hhad)
    simp [hmem]
  rw [hfil]
  rfl

theorem unlinked_prs_nil_after (s : RepoState) (pairs : List (Nat × Nat))
    (hcover : ∀ p ∈ s.prs, "has-issue" ∉ p.labels → p.number ∈ pairs.map Prod.fst) :
    get_open_prs_without_issue
      ((pairs.foldl (fun st q => link_pr_to_issue st q.1 q.2) s).prs) = [] := by
  unfold get_open_prs_without_issue
  have hfil : ((pairs.foldl (fun st q => link_pr_to_issue st q.1 q.2) s).prs).filter
      (fun p => !(p.labels.contains "has-issue")) = [] := by
    rw [foldl_link_prs, foldl_map_eq_map_foldl, List.filter_eq_nil_iff]
    intro a ha
    rcases List.mem_map.1 ha with ⟨p, hp, rfl⟩
    have hmem : "has-issue" ∈ (pairs.foldl (fun x q => prUpd q x) p).labels := by
      rw [foldl_prUpd_has]
      by_cases hhad : "has-issue" ∈ p.labels
      · exact Or.inl hhad
      · exact Or.inr (hcover p hp hhad)
    simp [hmem]
  rw [hfil]
  rfl

/-! ### Claim C4 -/

/-- C4: pairing is idempotent at the state level: each formed pair applies
`has-pr` to its issue and `has-issue` to its PR, and the input queries
exclude every item already carrying its linking label, so immediately
re-running the pairing action (with its default cap of 100, which cannot
bite because each query returns at most 100 items) processes zero
additional pairs. -/
theorem C4_pairing_idempotent (s : RepoState)
    (h : min (get_open_issues_without_pr s.issues).length
            (get_open_prs_without_issue s.prs).length ≤ 100) :
    (action_link_state (action_link_state s).1).2 = 0 := by
  have hzlen : ((get_open_prs_without_issue s.prs).zip
      (get_open_issues_without_pr s.issues)).length ≤ 100 := by
    rw [List.length_zip]
    omega
  have hpairs : linkLoop (get_open_issues_without_pr s.issues)
      (get_open_prs_without_issue s.prs) 100 =
      ((get_open_prs_without_issue s.prs).zip
        (get_open_issues_without_pr s.issues)).map
        (fun q => (q.1.number, q.2.number)) := by
    rw [linkLoop_eq, List.take_of_length_le hzlen]
  have hfirst : (action_link_state s).1 =
      (linkLoop (get_open_issues_without_pr s.issues)
        (get_open_prs_without_issue s.prs) 100).foldl
        (fun st q => link_pr_to_issue st q.1 q.2) s := rfl
  have hsecond : ∀ t : RepoState, (action_link_state t).2 =
      (linkLoop (get_open_issues_without_pr t.issues)
        (get_open_prs_without_issue t.prs) 100).length := fun t => rfl
  rw [hsecond, hfirst]
  by_cases hIP : (get_open_issues_without_pr s.issues).length ≤
      (get_open_prs_without_issue s.prs).length
  · have hsnd : (linkLoop (get_open_issues_without_pr s.issues)
        (get_open_prs_without_issue s.prs) 100).map Prod.snd =
        (get_open_issues_without_pr s.issues).map Issue.number := by
      rw [hpairs, List.map_map]
      rw [show ((Prod.snd ∘ fun q : PR × Issue => (q.1.number, q.2.number))) =
        (Issue.number ∘ Prod.snd) from rfl]
      rw [← List.map_map, List.map_snd_zip _ _ hIP]
    have hcov : ∀ i ∈ s.issues, "has-pr" ∉ i.labels →
        i.number ∈ (linkLoop (get_open_issues_without_pr s.issues)
          (get_open_prs_without_issue s.prs) 100).map Prod.snd := by
      intro i hi hhad
      rw [hsnd]
      apply List.mem_map_of_mem
      have hfil : i ∈ s.issues.filter (fun x => !(x.labels.contains "has-pr")) :=
        List.mem_filter.2 ⟨hi, by simp [hhad]⟩
      exact ((List.perm_insertionSort issueLE _).mem_iff).2 hfil
    rw [unlinked_issues_nil_after s _ hcov, linkLoop_nil_left]
    rfl
  · have hPI : (get_open_prs_without_issue s.prs).length ≤
        (get_open_issues_without_pr s.issues).length := by omega
    have hfst : (linkLoop (get_open_issues_without_pr s.issues)
        (get_open_prs_without_issue s.prs) 100).map Prod.fst =
        (get_open_prs_without_issue s.prs).map PR.number := by
      rw [hpairs, List.map_map]
      rw [show ((Prod.fst ∘ fun q : PR × Issue => (q.1.number, q.2.number))) =
        (PR.number ∘ Prod.fst) from rfl]
      rw [← List.map_map, List.map_fst_zip _ _ hPI]
    have hcov : ∀ p ∈ s.prs, "has-issue" ∉ p.labels →
        p.number ∈ (linkLoop (get_open_issues_without_pr s.issues)
          (get_open_prs_without_issue s.prs) 100).map Prod.fst := by
      intro p hp hhad
      rw [hfst]
      apply List.mem_map_of_mem
      have hfil : p ∈ s.prs.filter (fun x => !(x.labels.contains "has-issue")) :=
        List.mem_filter.2 ⟨hp, by simp [hhad]⟩
      exact ((List.perm_insertionSort prLE _).mem_iff).2 hfil
    rw [unlinked_prs_nil_after s _ hcov, linkLoop_nil_right]
    rfl

/-- Concrete instance of C4: the spec §8 state (issues #10–#12, PRs #20,
#21) pairs twice in a row; the second run processes zero pairs. -/
theorem C4_pairing_idempotent_witness :
    min (get_open_issues_without_pr
          [⟨10, [], "a"⟩, ⟨11, [], "b"⟩, ⟨12, [], "c"⟩]).length
        (get_open_prs_without_issue
          [⟨20, [], "auto/bot-pr-1", none, ""⟩,
           ⟨21, [], "auto/bot-pr-2", none, ""⟩]).length ≤ 100 ∧
    (action_link_state (action_link_state
      ⟨[⟨10, [], "a"⟩, ⟨11, [], "b"⟩, ⟨12, [], "c"⟩],
       [⟨20, [], "auto/bot-pr-1", none, ""⟩,
        ⟨21, [], "auto/bot-pr-2", none, ""⟩]⟩).1).2 = 0 :=
  ⟨by decide, C4_pairing_idempotent _ (by decide)⟩

end DailyOps
